/-
  Verification of the PDF → PNG conversion utility in `app/lib/pdf2img.ts`.

  Shallow embedding: the utility orchestrates calls into external
  collaborators (the browser window/document, the pdf.js engine, the 2D
  canvas, the PNG encoder, `URL.createObjectURL`).  Each external call's
  outcome is a field of an explicit environment record `ConvEnv`; a call
  that can throw in JavaScript is given outcome type `Except String _`
  (the `String` is the thrown error's message), a call that can return
  `null` is given `Option _`.  The module-level mutable variables
  `pdfjsLib` and `loadPromise` of the source become an explicit
  `LoadState` threaded through the functions.  JavaScript strings are
  Lean `String`s; the regular expressions `/\.pdf$/i` (test and replace)
  are embedded at the character-list level.
-/
import Mathlib

namespace Pdf2Img

/-- A JavaScript `File` argument as `convertPdfToImage` sees it: only the
name and an opaque handle to its byte content matter to the orchestration
logic.  A `null`/`undefined` argument is modelled as `Option JsFile =
none` at the call site. -/
structure JsFile where
  name : String
  contentId : Nat
deriving Repr, DecidableEq

/-- A PNG blob produced by `canvas.toBlob`: the encoder is external, so
the blob is its pixel dimensions (those of the canvas it encodes) plus an
opaque payload identifier. -/
structure PngBlob where
  width : Nat
  height : Nat
  data : Nat
deriving Repr, DecidableEq

/-- The `File` object constructed on the success path:
`new File([blob], name, { type: "image/png" })`. -/
structure JsImageFile where
  name : String
  type : String
  blob : PngBlob
deriving Repr, DecidableEq

/-- Structure `PdfConversionResult` from the source: `imageUrl: string`,
`file: File | null`, `error?: string`. -/
structure PdfConversionResult where
  imageUrl : String
  file : Option JsImageFile
  error : Option String := none
deriving Repr, DecidableEq

/-- A pdf.js page handle: only its native dimensions feed back into the
orchestration (through `getViewport`). -/
structure PdfPage where
  width : Nat
  height : Nat
deriving Repr, DecidableEq

/-- The value of `page.getViewport({ scale })`: the engine's contract is
that the viewport is the page's native dimensions times the scale. -/
structure Viewport where
  width : Nat
  height : Nat
deriving Repr, DecidableEq

def getViewport (page : PdfPage) (scale : Nat) : Viewport :=
  { width := scale * page.width, height := scale * page.height }

/-- The module-level mutable state of `app/lib/pdf2img.ts`:
`let pdfjsLib: any = null; let loadPromise: Promise<any> | null = null`.
Engine handles are opaque `Nat` identifiers.  `promisesCreated` counts
how many times the loader IIFE (the dynamic import of the engine) has
been started; it is a ghost counter used to state the single-flight
property. -/
structure LoadState where
  pdfjsLib : Option Nat
  loadPromise : Bool
  promisesCreated : Nat
deriving Repr, DecidableEq

/-- The initial module state: both variables `null`. -/
def LoadState.init : LoadState :=
  { pdfjsLib := none, loadPromise := false, promisesCreated := 0 }

/-- What a single call to `loadPdfJs` does synchronously (before any
await): return the cached library, join the in-flight promise, or start
a fresh load. -/
inductive LoadOutcome where
  | cached (lib : Nat)
  | joined
  | started
deriving Repr, DecidableEq

/-- Function `loadPdfJs` from the source, as a state transformer:
`if (pdfjsLib) return pdfjsLib; if (loadPromise) return loadPromise;`
otherwise create the load promise (incrementing the ghost counter) and
return it. -/
def loadPdfJs (s : LoadState) : LoadOutcome × LoadState :=
  match s.pdfjsLib with
  | some lib => (.cached lib, s)
  | none =>
    if s.loadPromise then (.joined, s)
    else (.started,
      { s with loadPromise := true, promisesCreated := s.promisesCreated + 1 })

/-- The outcome of the dynamic import performed inside the loader IIFE
(`import("pdfjs-dist/legacy/build/pdf.mjs")` plus worker configuration):
either an engine handle or a rejection message.  It is fixed per process:
the single load promise settles exactly once. -/
structure LoadEnv where
  importResult : Except String Nat
deriving Repr

/-- The settling of the in-flight load promise: on success the IIFE runs
`pdfjsLib = lib`; on rejection `pdfjsLib` stays `null` (and `loadPromise`
stays set, caching the rejected promise — the source never clears it). -/
def resolveLoad (env : LoadEnv) (s : LoadState) : LoadState :=
  if s.loadPromise then
    match env.importResult with
    | .ok lib => { s with pdfjsLib := some lib }
    | .error _ => s
  else s

/-- Events observable at the loader granularity: a caller invokes
`loadPdfJs`, or the in-flight load promise settles. -/
inductive LoadEvent where
  | call
  | settle
deriving Repr, DecidableEq

def loadStep (env : LoadEnv) (s : LoadState) : LoadEvent → LoadState
  | .call => (loadPdfJs s).2
  | .settle => resolveLoad env s

/-- The module state after a sequence of loader events starting from the
initial state. -/
def runLoad (env : LoadEnv) (events : List LoadEvent) : LoadState :=
  events.foldl (loadStep env) LoadState.init

/-- The value a caller's returned promise eventually settles to: the
cached library directly, or — for a joined or freshly started load — the
settling of the unique load promise. -/
def eventualHandle (env : LoadEnv) : LoadOutcome → Except String Nat
  | .cached lib => .ok lib
  | .joined => env.importResult
  | .started => env.importResult

/-- The outcome of the build-time asset import in `getWorkerUrl`:
`import("pdfjs-dist/build/pdf.worker.min.mjs?url")` either throws, or
resolves to a module value `mod` (possibly falsy), whose `default`
export may be absent or an arbitrary string (the empty string being
falsy in JavaScript). -/
inductive WorkerImport where
  | throws
  | resolves (mod : Option (Option String))
deriving Repr, DecidableEq

/-- Function `getWorkerUrl` from the source:
`try { const mod = await import(...); return (mod && mod.default) || "/pdf.worker.min.mjs"; } catch { return "/pdf.worker.min.mjs"; }`.
JavaScript falsiness of `mod && mod.default` is: `mod` nullish, or
`mod.default` absent, or `mod.default === ""`. -/
def getWorkerUrl (imp : WorkerImport) : String :=
  match imp with
  | .throws => "/pdf.worker.min.mjs"
  | .resolves none => "/pdf.worker.min.mjs"
  | .resolves (some m) =>
    match m with
    | none => "/pdf.worker.min.mjs"
    | some s => if s = "" then "/pdf.worker.min.mjs" else s

/-- The test `/\.pdf$/i.test name` at the character level: the last four
characters are `.`, `p`, `d`, `f`, letters matched case-insensitively
(the `i` flag). -/
def pdfSuffixMatch (cs : List Char) : Bool :=
  match cs.reverse with
  | f :: d :: p :: dot :: _ =>
    dot = '.' && p.toLower = 'p' && d.toLower = 'd' && f.toLower = 'f'
  | _ => false

/-- The test `/\.pdf$/i.test(file.name)` from the validation guard. -/
def endsWithPdfCI (name : String) : Bool :=
  pdfSuffixMatch name.data

/-- The call `file.name.replace(/\.pdf$/i, "")`: the regex is anchored at the end,
so exactly the final four characters are removed when they match, and the
name is returned untouched otherwise. -/
def stripPdfSuffix (name : String) : String :=
  if pdfSuffixMatch name.data then
    String.mk name.data.dropLast.dropLast.dropLast.dropLast
  else name

/-- Modelled from the Web API contract of `URL.createObjectURL`: it
returns a freshly minted non-empty `blob:`-scheme URL string (the part
after the scheme is host-chosen, carried here in the environment). -/
def createObjectURL (nonce : String) : String :=
  "blob:" ++ nonce

/-- The environment of one `convertPdfToImage` call: the outcome of each
external collaborator's part.  Fields follow the order of use in the
source. -/
structure ConvEnv where
  /-- The guard `typeof window !== "undefined"`. -/
  hasWindow : Bool
  /-- Outcome of the engine load promise (see `LoadEnv`). -/
  importResult : Except String Nat
  /-- The call `file.arrayBuffer()`: the file's bytes, or a read failure. -/
  arrayBuffer : Nat → Except String (List Nat)
  /-- The call `lib.getDocument({ data }).promise`: parse outcome; the document
  handle is an opaque identifier. -/
  getDocument : Nat → List Nat → Except String Nat
  /-- The call `pdf.getPage(n)`: page retrieval outcome. -/
  getPage : Nat → Nat → Except String PdfPage
  /-- The call `canvas.getContext("2d")`: the 2D context, or `null`. -/
  getContext2d : Option Nat
  /-- The call `page.render({ canvasContext, viewport }).promise`: render outcome. -/
  render : Nat → Viewport → Except String Unit
  /-- The call `canvas.toBlob(cb, "image/png", 1.0)` on a canvas of the given
  width and height: the encoded payload, or `null`. -/
  encodePng : Nat → Nat → Option Nat
  /-- The host-chosen suffix of the object URL (see `createObjectURL`). -/
  urlNonce : String

def LoadEnv.ofConv (env : ConvEnv) : LoadEnv :=
  { importResult := env.importResult }

/-- The line `const lib = await loadPdfJs()`: the synchronous call on the module
state followed by awaiting the returned promise.  Awaiting a joined or
fresh load lets the IIFE finish: on success it has stored the handle in
`pdfjsLib`; on rejection the state keeps the (rejected) promise cached. -/
def awaitEngine (env : ConvEnv) (s : LoadState) : Except String Nat × LoadState :=
  let p := loadPdfJs s
  match p.1 with
  | .cached lib => (.ok lib, p.2)
  | _ =>
    match env.importResult with
    | .ok lib => (.ok lib, { p.2 with pdfjsLib := some lib })
    | .error msg => (.error msg, p.2)

/-- The body of the `try` block of `convertPdfToImage`, from
`const lib = await loadPdfJs()` to the success return.  An `.error msg`
is an exception propagating to the `catch`; an `.ok r` is an explicit
`return r` inside the `try` (the two guard-clause error results and the
success result). -/
def convertBody (env : ConvEnv) (s : LoadState) (f : JsFile) :
    Except String PdfConversionResult × LoadState :=
  match awaitEngine env s with
  | (.error msg, s₁) => (.error msg, s₁)
  | (.ok lib, s₁) =>
    match env.arrayBuffer f.contentId with
    | .error msg => (.error msg, s₁)
    | .ok bytes =>
      match env.getDocument lib bytes with
      | .error msg => (.error msg, s₁)
      | .ok pdf =>
        match env.getPage pdf 1 with
        | .error msg => (.error msg, s₁)
        | .ok page =>
          let viewport := getViewport page 3
          match env.getContext2d with
          | none =>
            (.ok { imageUrl := "", file := none,
                   error := some "Unable to get 2D canvas context." }, s₁)
          | some ctx =>
            match env.render ctx viewport with
            | .error msg => (.error msg, s₁)
            | .ok _ =>
              match env.encodePng viewport.width viewport.height with
              | none =>
                (.ok { imageUrl := "", file := none,
                       error := some "Failed to create image blob from canvas." }, s₁)
              | some payload =>
                let blob : PngBlob :=
                  { width := viewport.width, height := viewport.height, data := payload }
                let originalName := stripPdfSuffix f.name
                let imageFile : JsImageFile :=
                  { name := originalName ++ ".png", type := "image/png", blob := blob }
                (.ok { imageUrl := createObjectURL env.urlNonce,
                       file := some imageFile, error := none }, s₁)

/-- Function `convertPdfToImage` from the source: the environment guard, the
file-validation guard, then the `try`/`catch` around `convertBody`.  The
`catch` wraps the thrown message as
`"Failed to convert PDF: " ++ msg` (the thrown values are modelled by
their message strings, so `err?.message || String(err)` is `msg`). -/
def convertPdfToImage (env : ConvEnv) (s : LoadState) (file : Option JsFile) :
    PdfConversionResult × LoadState :=
  if env.hasWindow = false then
    ({ imageUrl := "", file := none,
       error := some "PDF conversion is only available in the browser." }, s)
  else
    match file with
    | none =>
      ({ imageUrl := "", file := none,
         error := some "Please provide a valid .pdf file." }, s)
    | some f =>
      if endsWithPdfCI f.name = false then
        ({ imageUrl := "", file := none,
           error := some "Please provide a valid .pdf file." }, s)
      else
        match convertBody env s f with
        | (.ok r, s₁) => (r, s₁)
        | (.error msg, s₁) =>
          ({ imageUrl := "", file := none,
             error := some ("Failed to convert PDF: " ++ msg) }, s₁)

/-- The success shape of a `PdfConversionResult`: non-empty `imageUrl`,
non-null `file`, no `error` field. -/
def goodShape (r : PdfConversionResult) : Prop :=
  r.imageUrl ≠ "" ∧ r.file.isSome ∧ r.error = none

/-- The failure shape of a `PdfConversionResult`: `error` set, empty
`imageUrl`, null `file`. -/
def errShape (r : PdfConversionResult) : Prop :=
  r.error.isSome ∧ r.imageUrl = "" ∧ r.file = none

/-- A concrete environment on which every external step succeeds: the
engine loads as handle 7, the file reads as three bytes, parsing yields
document 11, the first page is 100 × 200, the 2D context exists, the
render succeeds and the encoder yields payload 99. -/
def okEnv : ConvEnv :=
  { hasWindow := true
    importResult := .ok 7
    arrayBuffer := fun _ => .ok [1, 2, 3]
    getDocument := fun _ _ => .ok 11
    getPage := fun _ _ => .ok { width := 100, height := 200 }
    getContext2d := some 0
    render := fun _ _ => .ok ()
    encodePng := fun _ _ => some 99
    urlNonce := "nonce" }

/-- Environment `okEnv` with an engine whose dynamic import rejects. -/
def engineFailEnv : ConvEnv :=
  { okEnv with importResult := .error "boom" }

/-- Environment `okEnv` with `canvas.getContext("2d")` returning `null`. -/
def noCtxEnv : ConvEnv :=
  { okEnv with getContext2d := none }

/-- Environment `okEnv` outside a browser (`typeof window === "undefined"`). -/
def noWindowEnv : ConvEnv :=
  { okEnv with hasWindow := false }

/-- A well-named input file. -/
def fOk : JsFile := { name := "cv.pdf", contentId := 0 }

/-- An input file with the wrong extension. -/
def fTxt : JsFile := { name := "cv.txt", contentId := 0 }

/-- The loader invariant: the ghost creation counter matches whether the
single load promise exists, and a cached library handle can only have
come from a successful settling of that promise. -/
def LoadInv (env : LoadEnv) (s : LoadState) : Prop :=
  s.promisesCreated = (if s.loadPromise then 1 else 0) ∧
  ∀ lib, s.pdfjsLib = some lib → s.loadPromise = true ∧ env.importResult = .ok lib

theorem loadInv_init (env : LoadEnv) : LoadInv env LoadState.init := by
  refine ⟨rfl, fun lib h => ?_⟩
  simp [LoadState.init] at h

theorem loadInv_step (env : LoadEnv) (s : LoadState) (e : LoadEvent)
    (h : LoadInv env s) : LoadInv env (loadStep env s e) := by
  obtain ⟨hc, hl⟩ := h
  cases e with
  | call =>
    unfold loadStep loadPdfJs
    cases hp : s.pdfjsLib with
    | some lib => exact ⟨hc, hl⟩
    | none =>
      cases hb : s.loadPromise with
      | true => simp only [hb, if_true]; exact ⟨hc, hl⟩
      | false =>
        rw [hb] at hc
        simp only [hb] at hc ⊢
        simp only [Bool.false_eq_true, if_false] at hc ⊢
        refine ⟨by simp [hc], fun lib hlib => by simp at hlib⟩
  | settle =>
    unfold loadStep resolveLoad
    cases hb : s.loadPromise with
    | false =>
      simp only [hb, Bool.false_eq_true, if_false]
      exact ⟨hc, hl⟩
    | true =>
      simp only [hb, if_true]
      cases hi : env.importResult with
      | error msg => exact ⟨hc, hl⟩
      | ok lib =>
        rw [hb] at hc
        refine ⟨by simpa using hc, fun l hl2 => ?_⟩
        simp only at hl2
        simp at hl2
        subst hl2
        exact ⟨rfl, hi⟩

theorem loadInv_run (env : LoadEnv) (events : List LoadEvent) :
    LoadInv env (runLoad env events) := by
  have h : ∀ (evs : List LoadEvent) (s : LoadState), LoadInv env s →
      LoadInv env (evs.foldl (loadStep env) s) := by
    intro evs
    induction evs with
    | nil => intro s hs; exact hs
    | cons e rest ih => intro s hs; exact ih _ (loadInv_step env s e hs)
  exact h events LoadState.init (loadInv_init env)

/-- Every `.ok` result returned from inside the `try` block is either one
of the two early error results, or the success record. -/
theorem convertBody_ok_shape (env : ConvEnv) (s : LoadState) (f : JsFile)
    (r : PdfConversionResult) (s₁ : LoadState)
    (h : convertBody env s f = (.ok r, s₁)) :
    (r.imageUrl = "" ∧ r.file = none ∧ r.error.isSome) ∨
    (r.imageUrl = createObjectURL env.urlNonce ∧ r.file.isSome ∧ r.error = none) := by
  unfold convertBody at h
  rcases hA : awaitEngine env s with ⟨resA, sA⟩
  rw [hA] at h
  cases resA with
  | error msg => simp at h
  | ok lib =>
    dsimp only at h
    cases hB : env.arrayBuffer f.contentId with
    | error msg => rw [hB] at h; simp at h
    | ok bytes =>
      rw [hB] at h
      dsimp only at h
      cases hD : env.getDocument lib bytes with
      | error msg => rw [hD] at h; simp at h
      | ok pdf =>
        rw [hD] at h
        dsimp only at h
        cases hP : env.getPage pdf 1 with
        | error msg => rw [hP] at h; simp at h
        | ok page =>
          rw [hP] at h
          dsimp only at h
          cases hC : env.getContext2d with
          | none =>
            rw [hC] at h
            simp at h
            obtain ⟨h1, h2⟩ := h
            subst h1
            left
            simp
          | some ctx =>
            rw [hC] at h
            dsimp only at h
            cases hR : env.render ctx (getViewport page 3) with
            | error msg => rw [hR] at h; simp at h
            | ok u =>
              rw [hR] at h
              dsimp only at h
              cases hE : env.encodePng (getViewport page 3).width (getViewport page 3).height with
              | none =>
                rw [hE] at h
                simp at h
                obtain ⟨h1, h2⟩ := h
                subst h1
                left
                simp
              | some payload =>
                rw [hE] at h
                simp at h
                obtain ⟨h1, h2⟩ := h
                subst h1
                right
                simp

theorem createObjectURL_ne_empty (nonce : String) : createObjectURL nonce ≠ "" := by
  intro h
  have := congrArg String.length h
  simp [createObjectURL, String.length_append] at this
  exact absurd this.1 (by decide)

/-- C1: every result of `convertPdfToImage` satisfies exactly one of the
two shapes — success (non-empty `imageUrl`, non-null `file`, no `error`)
or failure (`error` set, empty `imageUrl`, null `file`); no result mixes
them. -/
theorem convert_result_exclusive_shapes (env : ConvEnv) (s : LoadState)
    (file : Option JsFile) :
    Xor' (goodShape (convertPdfToImage env s file).1)
         (errShape (convertPdfToImage env s file).1) := by
  have disj : goodShape (convertPdfToImage env s file).1 ∨
      errShape (convertPdfToImage env s file).1 := by
    unfold convertPdfToImage
    by_cases hw : env.hasWindow = false
    · simp [hw, goodShape, errShape]
    · simp only [hw, if_false]
      cases file with
      | none => simp [goodShape, errShape]
      | some f =>
        by_cases hv : endsWithPdfCI f.name = false
        · simp [hv, goodShape, errShape]
        · simp only [hv, if_false]
          rcases hb : convertBody env s f with ⟨res, s₁⟩
          cases res with
          | error msg => simp [goodShape, errShape]
          | ok r =>
            simp only
            rcases convertBody_ok_shape env s f r s₁ hb with h | h
            · right; exact ⟨by simp [h.2.2], h.1, h.2.1⟩
            · left
              exact ⟨h.1 ▸ createObjectURL_ne_empty env.urlNonce, h.2.1, h.2.2⟩
  rcases disj with h | h
  · exact Or.inl ⟨h, fun hbad => by
      rcases h with ⟨_, _, he⟩
      rcases hbad with ⟨hbe, _, _⟩
      rw [he] at hbe; simp at hbe⟩
  · exact Or.inr ⟨h, fun hgood => by
      rcases h with ⟨hbe, _, _⟩
      rcases hgood with ⟨_, _, he⟩
      rw [he] at hbe; simp at hbe⟩

/-- C2: no exception escapes `convertPdfToImage` — any exception thrown
in the main path (engine load, byte read, parse, render, encode) is
caught at the operation boundary and converted into
`{ imageUrl: "", file: null, error: "Failed to convert PDF: <message>" }`
with the underlying error's message. -/
theorem convert_catches_all_exceptions (env : ConvEnv) (s : LoadState) (f : JsFile)
    (msg : String) (s₁ : LoadState)
    (hw : env.hasWindow = true) (hv : endsWithPdfCI f.name = true)
    (hb : convertBody env s f = (.error msg, s₁)) :
    convertPdfToImage env s (some f) =
      ({ imageUrl := "", file := none,
         error := some ("Failed to convert PDF: " ++ msg) }, s₁) := by
  unfold convertPdfToImage
  simp [hw, hv, hb]

/-- C2 witness: a rejecting engine import is caught and wrapped. -/
theorem convert_catches_all_exceptions_witness :
    convertPdfToImage engineFailEnv LoadState.init (some fOk) =
      ({ imageUrl := "", file := none,
         error := some ("Failed to convert PDF: " ++ "boom") },
       { pdfjsLib := none, loadPromise := true, promisesCreated := 1 }) :=
  convert_catches_all_exceptions engineFailEnv LoadState.init fOk "boom"
    { pdfjsLib := none, loadPromise := true, promisesCreated := 1 }
    rfl (by decide) rfl

/-- C3: for a null file or a name not ending in `.pdf`
(case-insensitively), `convertPdfToImage` returns the validation error
result with `file = null`, `imageUrl = ""`, message
"Please provide a valid .pdf file.", and the engine-load state is left
unchanged. -/
theorem convert_rejects_invalid_file (env : ConvEnv) (s : LoadState)
    (file : Option JsFile)
    (hw : env.hasWindow = true)
    (hv : ∀ f, file = some f → endsWithPdfCI f.name = false) :
    convertPdfToImage env s file =
      ({ imageUrl := "", file := none,
         error := some "Please provide a valid .pdf file." }, s) := by
  unfold convertPdfToImage
  rw [hw]
  cases file with
  | none => simp
  | some f => simp [hv f rfl]

/-- C3 witness: a null file, and a `.txt` file, are both rejected with
the module state untouched. -/
theorem convert_rejects_invalid_file_witness :
    convertPdfToImage okEnv LoadState.init none =
      ({ imageUrl := "", file := none,
         error := some "Please provide a valid .pdf file." }, LoadState.init) ∧
    convertPdfToImage okEnv LoadState.init (some fTxt) =
      ({ imageUrl := "", file := none,
         error := some "Please provide a valid .pdf file." }, LoadState.init) :=
  ⟨convert_rejects_invalid_file okEnv LoadState.init none rfl
      (fun f h => by cases h),
   convert_rejects_invalid_file okEnv LoadState.init (some fTxt) rfl
      (fun f h => by cases h; decide)⟩

/-- C4: outside a browser-like environment, `convertPdfToImage`
immediately returns the environment error result regardless of the file
argument — the guard precedes file validation. -/
theorem convert_requires_browser (env : ConvEnv) (s : LoadState)
    (file : Option JsFile)
    (hw : env.hasWindow = false) :
    convertPdfToImage env s file =
      ({ imageUrl := "", file := none,
         error := some "PDF conversion is only available in the browser." }, s) := by
  unfold convertPdfToImage
  rw [hw]
  simp

/-- C4 witness: with no window, even an invalid (`.txt`) file argument
yields the environment error, not the validation error. -/
theorem convert_requires_browser_witness :
    convertPdfToImage noWindowEnv LoadState.init (some fTxt) =
      ({ imageUrl := "", file := none,
         error := some "PDF conversion is only available in the browser." },
       LoadState.init) :=
  convert_requires_browser noWindowEnv LoadState.init (some fTxt) rfl

theorem pdfSuffixMatch_append_pdf (stem : String) :
    pdfSuffixMatch (stem ++ ".pdf").data = true := by
  have hd : (stem ++ ".pdf").data = stem.data ++ ['.', 'p', 'd', 'f'] := by
    rw [String.data_append]
  rw [hd]
  unfold pdfSuffixMatch
  rw [List.reverse_append]
  simp

theorem stripPdfSuffix_append_pdf (stem : String) :
    stripPdfSuffix (stem ++ ".pdf") = stem := by
  unfold stripPdfSuffix
  rw [pdfSuffixMatch_append_pdf]
  rw [if_pos rfl]
  rw [String.data_append]
  have hpd : (".pdf").data = ['.', 'p', 'd', 'f'] := by decide
  rw [hpd]
  have h4 : stem.data ++ ['.', 'p', 'd', 'f'] =
      ((((stem.data ++ ['.']) ++ ['p']) ++ ['d']) ++ ['f']) := by simp
  rw [h4]
  simp

/-- A result with no `error` field can only have come out of the `try`
block as the success record (every other exit sets `error`). -/
theorem convert_success_body (env : ConvEnv) (s : LoadState) (f : JsFile)
    (r : PdfConversionResult) (s₁ : LoadState)
    (hw : env.hasWindow = true) (hv : endsWithPdfCI f.name = true)
    (hc : convertPdfToImage env s (some f) = (r, s₁)) (hok : r.error = none) :
    convertBody env s f = (.ok r, s₁) := by
  unfold convertPdfToImage at hc
  simp only [hw, hv, Bool.true_eq_false, if_false] at hc
  rcases hb : convertBody env s f with ⟨res, sB⟩
  rw [hb] at hc
  cases res with
  | ok rOut =>
    dsimp only at hc
    injection hc with e1 e2
    subst e1
    subst e2
    rfl
  | error msg =>
    dsimp only at hc
    injection hc with e1 e2
    subst e1
    simp at hok

/-- On the success path every intermediate step succeeded and the result
is exactly the success record: object URL, stripped-name `.png` file of
MIME type `image/png`, blob of the 3×-scaled first-page dimensions. -/
theorem convertBody_success (env : ConvEnv) (s : LoadState) (f : JsFile)
    (r : PdfConversionResult) (s₁ : LoadState)
    (h : convertBody env s f = (.ok r, s₁)) (hok : r.error = none) :
    ∃ lib bytes pdf page payload,
      (awaitEngine env s).1 = .ok lib ∧
      env.arrayBuffer f.contentId = .ok bytes ∧
      env.getDocument lib bytes = .ok pdf ∧
      env.getPage pdf 1 = .ok page ∧
      env.encodePng (3 * page.width) (3 * page.height) = some payload ∧
      r = { imageUrl := createObjectURL env.urlNonce,
            file := some { name := stripPdfSuffix f.name ++ ".png",
                           type := "image/png",
                           blob := { width := 3 * page.width,
                                     height := 3 * page.height,
                                     data := payload } },
            error := none } := by
  unfold convertBody at h
  rcases hA : awaitEngine env s with ⟨resA, sA⟩
  rw [hA] at h
  cases resA with
  | error msg => simp at h
  | ok lib =>
    dsimp only at h
    cases hB : env.arrayBuffer f.contentId with
    | error msg => rw [hB] at h; simp at h
    | ok bytes =>
      rw [hB] at h
      dsimp only at h
      cases hD : env.getDocument lib bytes with
      | error msg => rw [hD] at h; simp at h
      | ok pdf =>
        rw [hD] at h
        dsimp only at h
        cases hP : env.getPage pdf 1 with
        | error msg => rw [hP] at h; simp at h
        | ok page =>
          rw [hP] at h
          dsimp only at h
          cases hC : env.getContext2d with
          | none =>
            rw [hC] at h
            simp at h
            obtain ⟨h1, h2⟩ := h
            subst h1
            simp at hok
          | some ctx =>
            rw [hC] at h
            dsimp only at h
            cases hR : env.render ctx (getViewport page 3) with
            | error msg => rw [hR] at h; simp at h
            | ok u =>
              rw [hR] at h
              dsimp only at h
              cases hE : env.encodePng (getViewport page 3).width (getViewport page 3).height with
              | none =>
                rw [hE] at h
                simp at h
                obtain ⟨h1, h2⟩ := h
                subst h1
                simp at hok
              | some payload =>
                rw [hE] at h
                simp at h
                obtain ⟨h1, h2⟩ := h
                refine ⟨lib, bytes, pdf, page, payload, rfl, rfl, hD, hP, ?_, ?_⟩
                · simpa [getViewport] using hE
                · rw [← h1]
                  simp [getViewport]

/-- C5: on the successful path the conversion retrieves the document's
page 1 (the first page in the engine's 1-based numbering), renders it at
the fixed scale factor 3, so the output blob's pixel dimensions are
exactly 3× the page's native dimensions; and the result of converting a
given input in a given environment is unique, so repeated conversion of
an identical input yields identical pixel dimensions. -/
theorem convert_renders_first_page_at_scale3 (env : ConvEnv) (s : LoadState)
    (f : JsFile) (r : PdfConversionResult) (s₁ : LoadState)
    (hw : env.hasWindow = true) (hv : endsWithPdfCI f.name = true)
    (hc : convertPdfToImage env s (some f) = (r, s₁)) (hok : r.error = none) :
    (∃ lib bytes pdf page imgF,
      (awaitEngine env s).1 = .ok lib ∧
      env.arrayBuffer f.contentId = .ok bytes ∧
      env.getDocument lib bytes = .ok pdf ∧
      env.getPage pdf 1 = .ok page ∧
      r.file = some imgF ∧
      imgF.blob.width = 3 * page.width ∧
      imgF.blob.height = 3 * page.height) ∧
    (∀ r₂ s₂, convertPdfToImage env s (some f) = (r₂, s₂) → r₂ = r) := by
  have hb := convert_success_body env s f r s₁ hw hv hc hok
  obtain ⟨lib, bytes, pdf, page, payload, h1, h2, h3, h4, h5, h6⟩ :=
    convertBody_success env s f r s₁ hb hok
  subst h6
  refine ⟨⟨lib, bytes, pdf, page, _, h1, h2, h3, h4, rfl, rfl, rfl⟩, ?_⟩
  intro r₂ s₂ h₂
  have := hc.symm.trans h₂
  injection this with e1 e2
  exact e1.symm

/-- C5 witness: on a concrete all-success environment whose first page
is 100 × 200, the output blob is 300 × 600. -/
theorem convert_renders_first_page_at_scale3_witness :
    (∃ lib bytes pdf page imgF,
      (awaitEngine okEnv LoadState.init).1 = .ok lib ∧
      okEnv.arrayBuffer fOk.contentId = .ok bytes ∧
      okEnv.getDocument lib bytes = .ok pdf ∧
      okEnv.getPage pdf 1 = .ok page ∧
      (convertPdfToImage okEnv LoadState.init (some fOk)).1.file = some imgF ∧
      imgF.blob.width = 3 * page.width ∧
      imgF.blob.height = 3 * page.height) ∧
    (∀ r₂ s₂, convertPdfToImage okEnv LoadState.init (some fOk) = (r₂, s₂) →
      r₂ = (convertPdfToImage okEnv LoadState.init (some fOk)).1) :=
  convert_renders_first_page_at_scale3 okEnv LoadState.init fOk _ _
    rfl (by decide) rfl rfl

/-- C6: on the successful path, for an input named `<stem>.pdf` (suffix
matched case-insensitively), the result carries no error, a non-empty
`imageUrl`, and a file of MIME type `image/png` named by stripping the
trailing `.pdf` and appending `.png` — in particular `<stem>.png` when
the suffix is spelled exactly `.pdf`. -/
theorem convert_success_output_file (env : ConvEnv) (s : LoadState)
    (f : JsFile) (r : PdfConversionResult) (s₁ : LoadState)
    (hw : env.hasWindow = true) (hv : endsWithPdfCI f.name = true)
    (hc : convertPdfToImage env s (some f) = (r, s₁)) (hok : r.error = none) :
    r.imageUrl ≠ "" ∧
    ∃ imgF, r.file = some imgF ∧ imgF.type = "image/png" ∧
      imgF.name = stripPdfSuffix f.name ++ ".png" ∧
      ∀ stem, f.name = stem ++ ".pdf" → imgF.name = stem ++ ".png" := by
  have hb := convert_success_body env s f r s₁ hw hv hc hok
  obtain ⟨lib, bytes, pdf, page, payload, h1, h2, h3, h4, h5, h6⟩ :=
    convertBody_success env s f r s₁ hb hok
  subst h6
  refine ⟨createObjectURL_ne_empty env.urlNonce, _, rfl, rfl, rfl, ?_⟩
  intro stem hst
  simp only [hst, stripPdfSuffix_append_pdf]

/-- C6 witness: converting `cv.pdf` on the all-success environment gives
a non-empty URL and a `cv.png` file of type `image/png`. -/
theorem convert_success_output_file_witness :
    (convertPdfToImage okEnv LoadState.init (some fOk)).1.imageUrl ≠ "" ∧
    ∃ imgF,
      (convertPdfToImage okEnv LoadState.init (some fOk)).1.file = some imgF ∧
      imgF.type = "image/png" ∧
      imgF.name = stripPdfSuffix fOk.name ++ ".png" ∧
      ∀ stem, fOk.name = stem ++ ".pdf" → imgF.name = stem ++ ".png" :=
  convert_success_output_file okEnv LoadState.init fOk _ _
    rfl (by decide) rfl rfl

/-- C7: when the 2D canvas context is unavailable, the conversion
returns the guard-clause result `error = "Unable to get 2D canvas
context."` with empty `imageUrl` and null `file` — not a thrown failure
(the message is not wrapped by the catch's "Failed to convert PDF:"
prefix). -/
theorem convert_no_2d_context (env : ConvEnv) (s : LoadState) (f : JsFile)
    (lib : Nat) (bytes : List Nat) (pdf : Nat) (page : PdfPage)
    (hw : env.hasWindow = true) (hv : endsWithPdfCI f.name = true)
    (hlib : (awaitEngine env s).1 = .ok lib)
    (hbytes : env.arrayBuffer f.contentId = .ok bytes)
    (hdoc : env.getDocument lib bytes = .ok pdf)
    (hpage : env.getPage pdf 1 = .ok page)
    (hctx : env.getContext2d = none) :
    convertPdfToImage env s (some f) =
      ({ imageUrl := "", file := none,
         error := some "Unable to get 2D canvas context." },
       (awaitEngine env s).2) := by
  have hb : convertBody env s f =
      (.ok { imageUrl := "", file := none,
             error := some "Unable to get 2D canvas context." },
       (awaitEngine env s).2) := by
    unfold convertBody
    rcases hA : awaitEngine env s with ⟨resA, sA⟩
    rw [hA] at hlib
    dsimp only at hlib
    subst hlib
    dsimp only
    rw [hbytes]
    dsimp only
    rw [hdoc]
    dsimp only
    rw [hpage]
    dsimp only
    rw [hctx]
  unfold convertPdfToImage
  simp [hw, hv, hb]

/-- C7 witness: the all-success environment with a null 2D context
returns the guard-clause error result. -/
theorem convert_no_2d_context_witness :
    convertPdfToImage noCtxEnv LoadState.init (some fOk) =
      ({ imageUrl := "", file := none,
         error := some "Unable to get 2D canvas context." },
       (awaitEngine noCtxEnv LoadState.init).2) :=
  convert_no_2d_context noCtxEnv LoadState.init fOk 7 [1, 2, 3] 11
    { width := 100, height := 200 } rfl (by decide) rfl rfl rfl rfl rfl

/-- C8: the engine loader is idempotent with single-flight
initialization — after any sequence of calls and promise settlings
starting from the initial module state, at most one load has ever been
started, and the promise any further call returns settles to the one
process-wide import outcome (so all callers, including those arriving
while the first initialization is in flight, resolve to the same eventual
handle). -/
theorem loadPdfJs_single_flight (env : LoadEnv) (events : List LoadEvent) :
    (runLoad env events).promisesCreated ≤ 1 ∧
    eventualHandle env (loadPdfJs (runLoad env events)).1 = env.importResult := by
  obtain ⟨hc, hl⟩ := loadInv_run env events
  constructor
  · rw [hc]
    split <;> simp
  · cases hp : (runLoad env events).pdfjsLib with
    | some lib =>
      have hq := hl lib hp
      unfold loadPdfJs
      rw [hp]
      simp [eventualHandle, hq.2]
    | none =>
      unfold loadPdfJs
      rw [hp]
      dsimp only
      split <;> simp [eventualHandle]

/-- C9: `getWorkerUrl` never yields an unusable value — its result is a
non-empty string for every import outcome, and on any failure (a thrown
import, a falsy module value, a missing or falsy `default` export) it
silently degrades to the fallback path `/pdf.worker.min.mjs`. -/
theorem getWorkerUrl_total_fallback (imp : WorkerImport) :
    getWorkerUrl imp ≠ "" ∧
    ((imp = .throws ∨ imp = .resolves none ∨ imp = .resolves (some none) ∨
        imp = .resolves (some (some ""))) →
      getWorkerUrl imp = "/pdf.worker.min.mjs") := by
  constructor
  · cases imp with
    | throws => simp [getWorkerUrl]
    | resolves mod =>
      match mod with
      | none => simp [getWorkerUrl]
      | some none => simp [getWorkerUrl]
      | some (some s) =>
        by_cases hs : s = "" <;> simp [getWorkerUrl, hs]
  · intro h
    rcases h with h | h | h | h <;> subst h <;> rfl

/-- C9 witness: a throwing import falls back to the well-known path. -/
theorem getWorkerUrl_total_fallback_witness :
    getWorkerUrl WorkerImport.throws = "/pdf.worker.min.mjs" :=
  (getWorkerUrl_total_fallback WorkerImport.throws).2 (Or.inl rfl)

/-- C10: validation and stripping act only on the final `.pdf` suffix —
a file named exactly `.pdf` passes validation and converts to a file
named `.png`, and `a.pdf.pdf` loses only its last suffix, converting to
`a.pdf.png`. -/
theorem suffix_acts_on_last_component_only :
    endsWithPdfCI ".pdf" = true ∧
    endsWithPdfCI "a.pdf.pdf" = true ∧
    stripPdfSuffix ".pdf" = "" ∧
    stripPdfSuffix "a.pdf.pdf" = "a.pdf" ∧
    (convertPdfToImage okEnv LoadState.init
        (some { name := ".pdf", contentId := 0 })).1.error = none ∧
    ((convertPdfToImage okEnv LoadState.init
        (some { name := ".pdf", contentId := 0 })).1.file.map
      (fun imgF => imgF.name)) = some ".png" ∧
    (convertPdfToImage okEnv LoadState.init
        (some { name := "a.pdf.pdf", contentId := 0 })).1.error = none ∧
    ((convertPdfToImage okEnv LoadState.init
        (some { name := "a.pdf.pdf", contentId := 0 })).1.file.map
      (fun imgF => imgF.name)) = some "a.pdf.png" := by
  refine ⟨by decide, by decide, by decide, by decide, rfl, ?_, rfl, ?_⟩ <;> rfl

end Pdf2Img
